import Mathlib

/-!
Shallow embedding of `mpisppy/agnostic/farmer4agnostic.py` (the farmer
scenario / bundle synthesis engine) together with proofs about its
scenario naming, seeding, yield synthesis, probability weighting and
bundle aggregation behaviour.

Modelling conventions:
* The process-wide numpy stream `farmerstream = np.random.RandomState()` is
  modelled as an explicit state `RNG` threaded through every function.
  `farmerstream.seed(n)` resets the state to `⟨n, 0⟩`; `farmerstream.rand()`
  returns an opaque value `draw seedValue position` and advances the
  position.  The concrete pseudo-random algorithm is irrelevant to every
  property below, so the value function `draw : Nat → Nat → Rat` is a
  parameter: two draws are bit-identical exactly when they are taken from
  the same seed at the same stream position.
* Python floats for yields/prices are modelled as `Rat` (every literal in
  the source is exactly representable and only `+` is applied to the
  stochastic data, so no rounding behaviour is lost).
* Fallible code returns `Except FarmerError`; the constructors record the
  spec's error taxonomy (section 7): Python's `RuntimeError` for an
  unrecognized prefix, the `AttributeError` escaping `sputils.extract_num`
  on a name without trailing digits and the `ValueError`/`IndexError` from
  `int(name.split("_")[k])` are all `InvalidNameError` ("malformed or
  unrecognized name"); the `ValueError` for a bad model sense is
  `InvalidSenseError`; both `assert`s of the bundle branch are
  `BundleSizeMismatchError`.
-/

/-- Errors of the engine, following the specification's taxonomy. -/
inductive FarmerError where
  | invalidName
  | invalidSense
  | bundleSizeMismatch
  | typeErr    -- Python TypeError: `None % bunsize` when num_scens is None
  | zeroDiv    -- Python ZeroDivisionError: `% 0` or `1/0`
  | keyErr     -- Python KeyError: Yield dict lookup with an unknown base name
  deriving DecidableEq, Repr

/-- State of the shared numpy stream `farmerstream`: the seed last set and
the number of variates consumed since that seeding. -/
structure RNG where
  seedVal : Nat
  pos : Nat
  deriving DecidableEq, Repr

/-- Python `farmerstream.seed(n)`: fully resets the generator state. -/
def RNG.seed (n : Nat) : RNG := ⟨n, 0⟩

/-- Python `farmerstream.rand()`: produce the next variate (the abstract value
`draw seed position`) and advance the stream. -/
def RNG.rand (draw : Nat → Nat → Rat) (g : RNG) : Rat × RNG :=
  (draw g.seedVal g.pos, ⟨g.seedVal, g.pos + 1⟩)

/-! ### Decimal rendering and parsing of indices

Python renders indices with `f"scen{i}"` / `str(groupnum)` and parses them
back with `sputils.extract_num` (a regex for trailing digits fed to `int`)
and `int(...)` on `split("_")` fields.  We model decimal rendering with an
explicitly fuelled (hence kernel-reducible) digit expansion and parsing as
a fold over digit characters. -/

/-- Big-endian decimal digit characters of `n` (empty for `n = 0`); the
fuel argument only bounds the recursion depth. -/
def natDigitsAux : Nat → Nat → List Char
  | 0, _ => []
  | fuel + 1, n =>
    if n = 0 then [] else natDigitsAux fuel (n / 10) ++ [Nat.digitChar (n % 10)]

/-- Python `str(n)` for a natural number. -/
def natStr (n : Nat) : String :=
  if n = 0 then "0" else String.mk (natDigitsAux (n + 1) n)

/-- Numeric value of a big-endian digit-character list (what Python's
`int` computes on an all-digit string). -/
def charsVal (l : List Char) : Nat :=
  l.foldl (fun a c => 10 * a + (c.toNat - 48)) 0

/-- The trailing digit characters of a string (what the regex `(\d+)$`
inside `sputils.extract_num` captures). -/
def trailingDigits (s : String) : List Char :=
  (s.toList.reverse.takeWhile Char.isDigit).reverse

/-- Modelled from the spec: `sputils.extract_num` lives in
`mpisppy/utils/sputils.py`, which is repository code outside `src/`.  Per
the spec it "parses the trailing integer" of a name and fails
(`InvalidNameError`) "if no trailing digits exist". -/
def extract_num (s : String) : Option Nat :=
  let ds := trailingDigits s
  if ds.isEmpty then none else some (charsVal ds)

/-- Python `s.rstrip("0123456789")` as used on scenario and crop names. -/
def rstripDigits (s : String) : String :=
  String.mk (s.toList.reverse.dropWhile Char.isDigit).reverse

/-- Python `str.split("_")` on a character list (keeps empty fields,
exactly like `split` with an explicit separator). -/
def splitUS : List Char → List (List Char)
  | [] => [[]]
  | c :: t =>
    match splitUS t with
    | [] => if c = '_' then [[], []] else [[c]]
    | w :: ws => if c = '_' then [] :: w :: ws else (c :: w) :: ws

/-- ASCII whitespace characters Python's `int` strips around a numeric
string (the `str.strip` set; non-ASCII whitespace cannot occur in the
ASCII names this engine produces and consumes). -/
def isPySpace (c : Char) : Bool :=
  c == ' ' || c == '\t' || c == '\n' || c == '\r' || c == '\x0b' || c == '\x0c'

/-- Python `int(s)` on a string field: optional surrounding whitespace,
then an optional single sign, then one or more decimal digits; anything
else raises `ValueError`, hence `none`.  (The fields this is applied to
come from `split("_")`, so the underscore digit-grouping Python would
additionally accept cannot occur; unicode digits are outside the ASCII
names of this engine.) -/
def pyInt? (l : List Char) : Option Int :=
  let core := ((l.dropWhile isPySpace).reverse.dropWhile isPySpace).reverse
  match core with
  | '+' :: ds =>
    if ds ≠ [] ∧ ds.all Char.isDigit then some ((charsVal ds : Nat) : Int) else none
  | '-' :: ds =>
    if ds ≠ [] ∧ ds.all Char.isDigit then some (-((charsVal ds : Nat) : Int)) else none
  | ds =>
    if ds ≠ [] ∧ ds.all Char.isDigit then some ((charsVal ds : Nat) : Int) else none

/-- A bundle-name field as the scenario index / seed shift the bundle
branch consumes.  Python's `int` also parses strictly negative fields;
those send the member loop through negative scenario indices and
negative `farmerstream.seed` arguments (numpy accepts exactly the seed
range `[0, 2**32)`), which lies outside this embedding's natural-number
seed model, so such names are treated as outside the modelled domain —
no theorem below asserts anything about a name with a strictly negative
field. -/
def decToNat? (l : List Char) : Option Nat :=
  match pyInt? l with
  | some i => if 0 ≤ i then some i.toNat else none
  | none => none

/-! ### The farmer data model

Crop names are the strings `WHEAT{i}`, `CORN{i}`, `SUGAR_BEETS{i}`; the
code only ever uses them through `cropname.rstrip("0123456789")` (the base
crop) and through their identity as an index, so a crop is modelled as the
pair (base crop, copy index) — the two projections of the string. -/

inductive CropBase where
  | WHEAT
  | CORN
  | SUGAR_BEETS
  deriving DecidableEq, Repr

/-- Source `crops_init`: for `i in range(crops_multiplier)` append `WHEAT{i}`,
`CORN{i}`, `SUGAR_BEETS{i}` (in this order). -/
def crops_init : Nat → List (CropBase × Nat)
  | 0 => []
  | m + 1 => crops_init m ++ [(.WHEAT, m), (.CORN, m), (.SUGAR_BEETS, m)]

/-- The three base scenario names (`basenames` in the source). -/
inductive BaseName where
  | BelowAverageScenario
  | AverageScenario
  | AboveAverageScenario
  deriving DecidableEq, Repr

def baseNameStr : BaseName → String
  | .BelowAverageScenario => "BelowAverageScenario"
  | .AverageScenario => "AverageScenario"
  | .AboveAverageScenario => "AboveAverageScenario"

def basenames : List String :=
  ["BelowAverageScenario", "AverageScenario", "AboveAverageScenario"]

/-- Lookup of a base scenario name (the keys of the `Yield` dict); a miss
is Python's `KeyError`. -/
def parseBaseName (s : String) : Option BaseName :=
  if s = "BelowAverageScenario" then some .BelowAverageScenario
  else if s = "AverageScenario" then some .AverageScenario
  else if s = "AboveAverageScenario" then some .AboveAverageScenario
  else none

/-- The `Yield` dict of unperturbed base values (floats of the source,
exact as rationals). -/
def Yield : BaseName → CropBase → Rat
  | .BelowAverageScenario, .WHEAT => 2
  | .BelowAverageScenario, .CORN => 12/5
  | .BelowAverageScenario, .SUGAR_BEETS => 16
  | .AverageScenario, .WHEAT => 5/2
  | .AverageScenario, .CORN => 3
  | .AverageScenario, .SUGAR_BEETS => 20
  | .AboveAverageScenario, .WHEAT => 3
  | .AboveAverageScenario, .CORN => 18/5
  | .AboveAverageScenario, .SUGAR_BEETS => 24

/-- Source `Yield_init(m, cropname)` for one crop: perturb the base value with
one draw from `farmerstream` exactly when `scengroupnum != 0`. -/
def Yield_init (draw : Nat → Nat → Rat) (base : BaseName) (scengroupnum : Nat)
    (c : CropBase × Nat) (g : RNG) : Rat × RNG :=
  if scengroupnum ≠ 0 then
    let (r, g') := RNG.rand draw g
    (Yield base c.1 + r, g')
  else
    (Yield base c.1, g)

/-- Initialization of the `model.Yield` Pyomo `Param`: `Yield_init` is
invoked once per crop, in the iteration order of `model.CROPS`. -/
def computeYields (draw : Nat → Nat → Rat) (base : BaseName) (scengroupnum : Nat)
    (crops : List (CropBase × Nat)) (g : RNG) : List Rat × RNG :=
  match crops with
  | [] => ([], g)
  | c :: rest =>
    let (y, g') := Yield_init draw base scengroupnum c g
    let (ys, g'') := computeYields draw base scengroupnum rest g'
    (y :: ys, g'')

/-- The probability annotation `_mpisppy_probability`: either a number or
the string sentinel `"uniform"`. -/
inductive Prob where
  | uniform
  | val (q : Rat)
  deriving DecidableEq, Repr

/-- A nonanticipative (first-stage) variable, identified by the Pyomo
variable name and its crop index — the consensus position it occupies
across scenarios. -/
structure VarId where
  varname : String
  crop : CropBase
  cropIdx : Nat
  deriving DecidableEq, Repr

/-- The observable part of the Pyomo model built for one scenario:
everything the claims quantify over.  `baseUsed`/`groupUsed` record the
`scenario_base_name` and `scengroupnum` the callback derived from the
scenario name (they select the row of the `Yield` dict and the
perturbation policy).  `rootVars` is the node list attached by
`sputils.attach_root_node(model, 0, varlist)`: every entry is keyed by the
node name `"ROOT"`. -/
structure ScenModel where
  name : String
  baseUsed : BaseName
  groupUsed : Nat
  crops : List (CropBase × Nat)
  yieldVals : List Rat
  probability : Prob
  rootVars : List (String × VarId)
  integerVars : Bool
  senseUsed : Int
  deriving DecidableEq, Repr

/-- Pyomo's `pyo.minimize` constant. -/
def pyoMinimize : Int := 1

/-- Pyomo's `pyo.maximize` constant. -/
def pyoMaximize : Int := -1

/-- Source `pysp_instance_creation_callback(scenario_name, ...)`: re-derives the
replicate group (`sputils.extract_num`) and the base name (`rstrip` of the
digits) from the composed scenario name, builds the crop set and the
stochastic `Yield` parameter.  Only the data the claims mention is kept;
the deterministic price/constraint structure of the model is omitted. -/
def pysp_instance_creation_callback (draw : Nat → Nat → Rat) (scenario_name : String)
    ( use_integer : Bool) (sense : Int) (crops_multiplier : Nat) (g : RNG) :
    Except FarmerError (ScenModel × RNG) :=
  match extract_num scenario_name with
  | none => .error .invalidName
  | some scengroupnum =>
    let scenario_base_name := rstripDigits scenario_name
    match parseBaseName scenario_base_name with
    | none => .error .keyErr
    | some base =>
      let CROPS := crops_init crops_multiplier
      let (ys, g') := computeYields draw base scengroupnum CROPS g
      .ok ({ name := scenario_name
             baseUsed := base
             groupUsed := scengroupnum
             crops := CROPS
             yieldVals := ys
             probability := .uniform    -- attached later, by scenario_creator
             rootVars := []             -- attached later, by scenario_creator
             integerVars := use_integer
             senseUsed := sense }, g')

/-- The scenario branch of `scenario_creator` (lines 49–88 of the source):
resolve the index, derive category and replicate group, re-seed the
stream with `scennum + seedoffset`, validate the sense, build the model,
attach the root node (per the spec, `sputils.attach_root_node(model, 0,
[model.DevotedAcreage])` designates the per-crop `DevotedAcreage`
variables as the single `"ROOT"` node) and attach the probability.
The incoming stream state is named `_g` because `farmerstream.seed`
overwrites it before any variate is drawn. -/
def scen_branch (draw : Nat → Nat → Rat) (scenario_name : String) ( use_integer : Bool)
    (sense : Int) (crops_multiplier : Nat) (num_scens : Option Nat) (seedoffset : Nat)
    (_g : RNG) : Except FarmerError (ScenModel × RNG) :=
  match extract_num scenario_name with
  | none => .error .invalidName
  | some scennum =>
    let basenum := scennum % 3
    let groupnum := scennum / 3
    let scenname := basenames.getD basenum "" ++ natStr groupnum
    let g1 := RNG.seed (scennum + seedoffset)
    if sense ≠ pyoMinimize ∧ sense ≠ pyoMaximize then .error .invalidSense
    else
      match pysp_instance_creation_callback draw scenname use_integer sense crops_multiplier g1 with
      | .error e => .error e
      | .ok (m, g2) =>
        let m := { m with
          rootVars := (crops_init crops_multiplier).map
            (fun c => ("ROOT", VarId.mk "DevotedAcreage" c.1 c.2))
          probability := match num_scens with
            | some n => if n = 0 then .uniform else .val (1 / (n : Rat))
            | none => .uniform }
        match num_scens with
        | some n => if n = 0 then .error .zeroDiv else .ok (m, g2)
        | none => .ok (m, g2)

/-- Field extraction of the bundle branch:
`int(scenario_name.split("_")[1])`, `int(scenario_name.split("_")[2])`
(the source calls `split` once per field).  A missing field
(`IndexError`) or one `int` cannot parse (`ValueError`) is a malformed
name; see `decToNat?` for the treatment of strictly negative fields. -/
def parseBundleName (scenario_name : String) : Option (Nat × Nat) :=
  match (splitUS scenario_name.toList).get? 1, (splitUS scenario_name.toList).get? 2 with
  | some s1, some s2 =>
    match decToNat? s1, decToNat? s2 with
    | some f, some l => some (f, l)
    | _, _ => none
  | _, _ => none

/-- The exact failure domain of the bundle branch's field extraction
(lines 91-92 of the source): Python raises `IndexError` when
`split("_")` yields no second or third part, and `ValueError` when
`int` cannot parse one of them. -/
def bundleFieldsFail (scenario_name : String) : Bool :=
  match (splitUS scenario_name.toList).get? 1, (splitUS scenario_name.toList).get? 2 with
  | some f1, some f2 => (pyInt? f1).isNone || (pyInt? f2).isNone
  | _, _ => true

/-- The call `scenario_creator(sname, **bunkwargs)` that
`sputils.create_EF` performs for each member name.  Member names are
always of the form `scen{i}`, so only the scenario branch of
`scenario_creator`'s prefix dispatch is reachable; the dispatch is
restated here (instead of a recursive call) to keep the recursion
structural. -/
def scenDispatch (draw : Nat → Nat → Rat) (scenario_name : String) ( use_integer : Bool)
    (sense : Int) (crops_multiplier : Nat) (num_scens : Option Nat) (seedoffset : Nat)
    (g : RNG) : Except FarmerError (ScenModel × RNG) :=
  if scenario_name.toList.take 4 = "scen".toList ∨ scenario_name.toList.take 4 = "Scen".toList then
    scen_branch draw scenario_name use_integer sense crops_multiplier num_scens seedoffset g
  else .error .invalidName

/-- Modelled from the spec: the member-instantiation loop of
`sputils.create_EF` (repository code outside `src/`).  It instantiates
each member scenario in name order through `scenario_creator`, threading
the shared stream. -/
def buildMembers (draw : Nat → Nat → Rat) ( use_integer : Bool) (sense : Int)
    (crops_multiplier : Nat) (seedoffset : Nat) :
    List String → RNG → Except FarmerError (List ScenModel × RNG)
  | [], g => .ok ([], g)
  | nm :: rest, g =>
    match scenDispatch draw nm use_integer sense crops_multiplier none seedoffset g with
    | .error e => .error e
    | .ok (m, g') =>
      match buildMembers draw use_integer sense crops_multiplier seedoffset rest g' with
      | .error e => .error e
      | .ok (ms, g'') => .ok (m :: ms, g'')

/-- Insertion-order union of variable lists (no duplicates added). -/
def varUnion (acc r : List (String × VarId)) : List (String × VarId) :=
  acc ++ r.filter (fun p => !(decide (p ∈ acc)))

/-- Modelled from the spec: the `ref_vars` attribute of the extensive form
built by `sputils.create_EF` (repository code outside `src/`).  Per the
spec it is "the union of root-node variables across members", each keyed
by its tree-node name. -/
def collectRefVars (ms : List ScenModel) : List (String × VarId) :=
  ms.foldl (fun acc m => varUnion acc m.rootVars) []

/-- The extensive-form bundle object. -/
structure BundleModel where
  name : String
  members : List ScenModel
  ref_vars : List (String × VarId)
  rootVars : List (String × VarId)
  probability : Prob
  deriving DecidableEq, Repr

/-- The bundle branch of `scenario_creator` (lines 90–120 of the source):
parse `bundle_<first>_<last>`, check the range length against the global
`bunsize`, run the (inverted — see `C2`) divisibility assert, build the
member scenarios `scen{first}..scen{last}` with `num_scens=None` and
`seedoffset + firstnum`, aggregate them, keep the `"ROOT"`-keyed
reference variables as the bundle's root node and attach probability
`1/numbuns`. -/
def bund_branch (draw : Nat → Nat → Rat) (bunsize numbuns : Nat) (scenario_name : String)
    ( use_integer : Bool) (sense : Int) (crops_multiplier : Nat) (num_scens : Option Nat)
    (seedoffset : Nat) (g : RNG) : Except FarmerError (BundleModel × RNG) :=
  match parseBundleName scenario_name with
  | none => .error .invalidName
  | some (firstnum, lastnum) =>
    -- assert (lastnum-firstnum+1) == bunsize
    if ((lastnum : Int) - (firstnum : Int) + 1) ≠ (bunsize : Int) then .error .bundleSizeMismatch
    else
      match num_scens with
      | none => .error .typeErr     -- Python: None % bunsize is a TypeError
      | some ns =>
        if bunsize = 0 then .error .zeroDiv
        -- assert num_scens % bunsize != 0  (the literal, inverted, source condition)
        else if ns % bunsize = 0 then .error .bundleSizeMismatch
        else
          let snames := (List.range' firstnum (lastnum + 1 - firstnum)).map
            (fun i => "scen" ++ natStr i)
          match buildMembers draw use_integer sense crops_multiplier (seedoffset + firstnum) snames g with
          | .error e => .error e
          | .ok (ms, g') =>
            let refv := collectRefVars ms
            -- nonantlist = [v for idx,v in bundle.ref_vars.items() if idx[0] == "ROOT"]
            let nonantlist := refv.filter (fun p => p.1 == "ROOT")
            if numbuns = 0 then .error .zeroDiv   -- 1/numbuns with the global default 0
            else .ok ({ name := scenario_name
                        members := ms
                        ref_vars := refv
                        rootVars := nonantlist
                        probability := .val (1 / (numbuns : Rat)) }, g')

/-- Result of the top-level dispatch: a plain scenario or a bundle. -/
inductive ScenOrBundle where
  | scen (m : ScenModel)
  | bund (b : BundleModel)
  deriving DecidableEq, Repr

/-- Source `scenario_creator(scenario_name, ...)`: dispatch on the first four
characters of the name.  The globals `bunsize` and `numbuns` (set by
`bundle_hack`) are passed explicitly. -/
def scenario_creator (draw : Nat → Nat → Rat) (bunsize numbuns : Nat)
    (scenario_name : String) ( use_integer : Bool) (sense : Int) (crops_multiplier : Nat)
    (num_scens : Option Nat) (seedoffset : Nat) (g : RNG) :
    Except FarmerError (ScenOrBundle × RNG) :=
  if scenario_name.toList.take 4 = "scen".toList ∨ scenario_name.toList.take 4 = "Scen".toList then
    (scen_branch draw scenario_name use_integer sense crops_multiplier num_scens seedoffset g).map
      (fun p => (.scen p.1, p.2))
  else if scenario_name.toList.take 4 = "bund".toList ∨ scenario_name.toList.take 4 = "Bund".toList then
    (bund_branch draw bunsize numbuns scenario_name use_integer sense crops_multiplier num_scens seedoffset g).map
      (fun p => (.bund p.1, p.2))
  else
    .error .invalidName   -- raise RuntimeError("Scenario name does not have scen or bund")

/-- Source `scenario_names_creator(num_scens, start=None)`: plain scenario names
when the global `bunsize` is 0, bundle names otherwise. -/
def scenario_names_creator (bunsize : Nat) (num_scens : Nat) (start : Option Nat) :
    List String :=
  let s := start.getD 0
  if bunsize = 0 then
    (List.range' s num_scens).map (fun i => "scen" ++ natStr i)
  else
    (List.range' s num_scens).map
      (fun i => "bundle_" ++ natStr (i * bunsize) ++ "_" ++ natStr ((i + 1) * bunsize - 1))

/-- The name-resolution fragment of the scenario branch (lines 49–53):
prefix test plus trailing-integer extraction — the spec's
`resolveScenarioName`. -/
def resolve_scen_name (scenario_name : String) : Option Nat :=
  if scenario_name.toList.take 4 = "scen".toList ∨ scenario_name.toList.take 4 = "Scen".toList then
    extract_num scenario_name
  else none

/-- A concrete variate function used by counterexamples and witnesses:
the value of a draw is its seed, so two streams seeded differently
produce different data. -/
def drawSeed : Nat → Nat → Rat := fun s _ => (s : Rat)

/-- A concrete all-zero variate function used by witnesses. -/
def drawZero : Nat → Nat → Rat := fun _ _ => 0

/-! ### Helper lemmas: decimal rendering round-trips -/

theorem digitChar_isDigit {d : Nat} (h : d < 10) : (Nat.digitChar d).isDigit = true := by
  interval_cases d <;> decide

theorem digitChar_val {d : Nat} (h : d < 10) : (Nat.digitChar d).toNat - 48 = d := by
  interval_cases d <;> decide

theorem charsVal_append_singleton (l : List Char) (c : Char) :
    charsVal (l ++ [c]) = 10 * charsVal l + (c.toNat - 48) := by
  simp [charsVal, List.foldl_append]

theorem natDigitsAux_spec :
    ∀ fuel n, n < fuel →
      charsVal (natDigitsAux fuel n) = n ∧ ∀ c ∈ natDigitsAux fuel n, c.isDigit = true := by
  intro fuel
  induction fuel with
  | zero => intro n h; omega
  | succ fuel ih =>
    intro n h
    by_cases hn : n = 0
    · subst hn; simp [natDigitsAux, charsVal]
    · have hdiv : n / 10 < n := Nat.div_lt_self (Nat.pos_of_ne_zero hn) (by norm_num)
      have hrec := ih (n / 10) (by omega)
      constructor
      · simp only [natDigitsAux, if_neg hn]
        rw [charsVal_append_singleton, hrec.1, digitChar_val (Nat.mod_lt n (by norm_num))]
        omega
      · simp only [natDigitsAux, if_neg hn]
        intro c hc
        rcases List.mem_append.mp hc with h1 | h2
        · exact hrec.2 c h1
        · simp only [List.mem_singleton] at h2
          subst h2
          exact digitChar_isDigit (Nat.mod_lt n (by norm_num))

theorem natDigitsAux_ne_nil {fuel n : Nat} (hf : n < fuel) (hn : n ≠ 0) :
    natDigitsAux fuel n ≠ [] := by
  cases fuel with
  | zero => omega
  | succ fuel => simp [natDigitsAux, if_neg hn]

theorem natStr_toList (n : Nat) :
    (natStr n).toList = if n = 0 then ['0'] else natDigitsAux (n + 1) n := by
  by_cases h : n = 0 <;> simp [natStr, h, String.toList]

theorem natStr_all_digits (n : Nat) : ∀ c ∈ (natStr n).toList, c.isDigit = true := by
  intro c hc
  rw [natStr_toList] at hc
  by_cases h : n = 0
  · simp [h] at hc; subst hc; decide
  · rw [if_neg h] at hc
    exact (natDigitsAux_spec (n + 1) n (by omega)).2 c hc

theorem natStr_toList_ne_nil (n : Nat) : (natStr n).toList ≠ [] := by
  rw [natStr_toList]
  by_cases h : n = 0
  · simp [h]
  · rw [if_neg h]; exact natDigitsAux_ne_nil (by omega) h

theorem charsVal_natStr (n : Nat) : charsVal (natStr n).toList = n := by
  rw [natStr_toList]
  by_cases h : n = 0
  · simp [h, charsVal]
  · rw [if_neg h]; exact (natDigitsAux_spec (n + 1) n (by omega)).1

theorem takeWhile_append_all {p : Char → Bool} {l1 l2 : List Char}
    (h : ∀ c ∈ l1, p c = true) :
    (l1 ++ l2).takeWhile p = l1 ++ l2.takeWhile p := by
  induction l1 with
  | nil => simp
  | cons a t ih =>
    simp only [List.cons_append, List.takeWhile_cons, h a (by simp)]
    rw [ih (fun c hc => h c (by simp [hc]))]
    simp

theorem dropWhile_append_all {p : Char → Bool} {l1 l2 : List Char}
    (h : ∀ c ∈ l1, p c = true) :
    (l1 ++ l2).dropWhile p = l2.dropWhile p := by
  induction l1 with
  | nil => simp
  | cons a t ih =>
    simp only [List.cons_append, List.dropWhile_cons, h a (by simp)]
    rw [ih (fun c hc => h c (by simp [hc]))]
    simp

theorem dropWhile_eq_self_of_takeWhile_nil {p : Char → Bool} {l : List Char}
    (h : l.takeWhile p = []) : l.dropWhile p = l := by
  cases l with
  | nil => rfl
  | cons a t =>
    simp only [List.takeWhile_cons] at h
    by_cases hp : p a = true
    · simp [hp] at h
    · simp only [List.dropWhile_cons]
      simp [hp]

theorem string_toList_append (s t : String) : (s ++ t).toList = s.toList ++ t.toList := by
  cases s; cases t; rfl

theorem string_mk_toList (s : String) : String.mk s.toList = s := by
  cases s; rfl

/-- Round-trip: appending a rendered number to a string with no trailing
digits and extracting the trailing integer recovers the number. -/
theorem extract_num_append (b : String) (n : Nat)
    (hb : b.toList.reverse.takeWhile Char.isDigit = []) :
    extract_num (b ++ natStr n) = some n := by
  have hds : trailingDigits (b ++ natStr n) = (natStr n).toList := by
    unfold trailingDigits
    rw [string_toList_append, List.reverse_append]
    rw [takeWhile_append_all (by intro c hc; exact natStr_all_digits n c (List.mem_reverse.mp hc))]
    rw [hb, List.append_nil, List.reverse_reverse]
  unfold extract_num
  rw [hds]
  simp only [List.isEmpty_eq_true]
  rw [if_neg (natStr_toList_ne_nil n), charsVal_natStr]

/-- Round-trip: `rstrip("0123456789")` removes exactly the rendered
number appended to a digit-free tail. -/
theorem rstripDigits_append (b : String) (n : Nat)
    (hb : b.toList.reverse.takeWhile Char.isDigit = []) :
    rstripDigits (b ++ natStr n) = b := by
  unfold rstripDigits
  rw [string_toList_append, List.reverse_append]
  rw [dropWhile_append_all (by intro c hc; exact natStr_all_digits n c (List.mem_reverse.mp hc))]
  rw [dropWhile_eq_self_of_takeWhile_nil hb, List.reverse_reverse, string_mk_toList]

theorem take4_scen_append (s : String) : ("scen" ++ s).toList.take 4 = "scen".toList := by
  rw [string_toList_append]
  have h : "scen".toList = ['s', 'c', 'e', 'n'] := rfl
  rw [h]
  rfl

theorem scen_no_trailing_digits : "scen".toList.reverse.takeWhile Char.isDigit = [] := by
  decide

theorem below_no_trailing_digits :
    "BelowAverageScenario".toList.reverse.takeWhile Char.isDigit = [] := by decide

theorem avg_no_trailing_digits :
    "AverageScenario".toList.reverse.takeWhile Char.isDigit = [] := by decide

theorem above_no_trailing_digits :
    "AboveAverageScenario".toList.reverse.takeWhile Char.isDigit = [] := by decide

/-! ### Helper lemmas: yield synthesis -/

theorem computeYields_group_zero (draw : Nat → Nat → Rat) (base : BaseName)
    (crops : List (CropBase × Nat)) (g : RNG) :
    computeYields draw base 0 crops g = (crops.map (fun c => Yield base c.1), g) := by
  induction crops with
  | nil => rfl
  | cons c t ih => simp [computeYields, Yield_init, ih]

theorem computeYields_group_pos (draw : Nat → Nat → Rat) (base : BaseName) {n : Nat}
    (hn : n ≠ 0) :
    ∀ (crops : List (CropBase × Nat)) (g : RNG),
      computeYields draw base n crops g =
        ((crops.enumFrom g.pos).map (fun p => Yield base p.2.1 + draw g.seedVal p.1),
         ⟨g.seedVal, g.pos + crops.length⟩) := by
  intro crops
  induction crops with
  | nil => intro g; rfl
  | cons c t ih =>
    intro g
    simp only [computeYields, Yield_init, RNG.rand, if_pos hn]
    rw [ih ⟨g.seedVal, g.pos + 1⟩]
    simp only [List.enumFrom, List.map_cons, List.length_cons]
    have h : g.pos + 1 + t.length = g.pos + (t.length + 1) := by omega
    rw [h]

theorem baseNameStr_no_trailing_digits (b : BaseName) :
    (baseNameStr b).toList.reverse.takeWhile Char.isDigit = [] := by
  cases b <;> decide

theorem parseBaseName_baseNameStr (b : BaseName) : parseBaseName (baseNameStr b) = some b := by
  cases b <;> decide

/-- Full evaluation of `pysp_instance_creation_callback` on a name of the
shape the scenario branch composes: the trailing digits parse back to the
replicate group and the stripped head parses back to the base name. -/
theorem callback_composed (draw : Nat → Nat → Rat) (b : BaseName) (gn : Nat)
    ( use_integer : Bool) (sense : Int) (cm : Nat) (g : RNG) :
    pysp_instance_creation_callback draw (baseNameStr b ++ natStr gn) use_integer sense cm g =
      .ok ({ name := baseNameStr b ++ natStr gn
             baseUsed := b
             groupUsed := gn
             crops := crops_init cm
             yieldVals := (computeYields draw b gn (crops_init cm) g).1
             probability := .uniform
             rootVars := []
             integerVars := use_integer
             senseUsed := sense },
           (computeYields draw b gn (crops_init cm) g).2) := by
  unfold pysp_instance_creation_callback
  rw [extract_num_append _ _ (baseNameStr_no_trailing_digits b)]
  rw [rstripDigits_append _ _ (baseNameStr_no_trailing_digits b)]
  simp only [parseBaseName_baseNameStr]

/-- Full evaluation of the scenario branch when the name resolves to
index `i`, the sense is valid and `num_scens` is not the degenerate 0. -/
theorem scen_branch_eq (draw : Nat → Nat → Rat) (name : String) ( use_integer : Bool)
    (sense : Int) (cm : Nat) (ns : Option Nat) (so : Nat) (g : RNG) (i : Nat)
    (hi : extract_num name = some i)
    (hs : sense = pyoMinimize ∨ sense = pyoMaximize)
    (hns : ns ≠ some 0) :
    scen_branch draw name use_integer sense cm ns so g =
      .ok ({ name := baseNameStr (if i % 3 = 0 then .BelowAverageScenario
                                  else if i % 3 = 1 then .AverageScenario
                                  else .AboveAverageScenario) ++ natStr (i / 3)
             baseUsed := (if i % 3 = 0 then .BelowAverageScenario
                          else if i % 3 = 1 then .AverageScenario
                          else .AboveAverageScenario)
             groupUsed := i / 3
             crops := crops_init cm
             yieldVals := (computeYields draw
               (if i % 3 = 0 then .BelowAverageScenario
                else if i % 3 = 1 then .AverageScenario
                else .AboveAverageScenario) (i / 3) (crops_init cm)
               (RNG.seed (i + so))).1
             probability := match ns with
               | some n => .val (1 / (n : Rat))
               | none => .uniform
             rootVars := (crops_init cm).map
               (fun c => ("ROOT", VarId.mk "DevotedAcreage" c.1 c.2))
             integerVars := use_integer
             senseUsed := sense },
           (computeYields draw
             (if i % 3 = 0 then .BelowAverageScenario
              else if i % 3 = 1 then .AverageScenario
              else .AboveAverageScenario) (i / 3) (crops_init cm)
             (RNG.seed (i + so))).2) := by
  have hsense : ¬(sense ≠ pyoMinimize ∧ sense ≠ pyoMaximize) := by
    rcases hs with h | h <;> simp [h]
  have h3 : i % 3 = 0 ∨ i % 3 = 1 ∨ i % 3 = 2 := by omega
  unfold scen_branch
  rw [hi]
  simp only [if_neg hsense]
  rcases h3 with h3 | h3 | h3 <;>
    · have hbn : basenames.getD (i % 3) "" =
          baseNameStr (if i % 3 = 0 then BaseName.BelowAverageScenario
                       else if i % 3 = 1 then .AverageScenario
                       else .AboveAverageScenario) := by
        rw [h3]; rfl
      rw [hbn, callback_composed]
      cases ns with
      | none => rfl
      | some n =>
        have hn0 : n ≠ 0 := by intro h; exact hns (by rw [h])
        simp [hn0]

theorem extract_num_scen (i : Nat) : extract_num ("scen" ++ natStr i) = some i :=
  extract_num_append "scen" i scen_no_trailing_digits

/-- The function `scen_branch` never reads the incoming stream state: the body starts
with `farmerstream.seed(scennum + seedoffset)`. -/
theorem scen_branch_state_independent (draw : Nat → Nat → Rat) (name : String)
    ( use_integer : Bool) (sense : Int) (cm : Nat) (ns : Option Nat) (so : Nat)
    (g1 g2 : RNG) :
    scen_branch draw name use_integer sense cm ns so g1 =
      scen_branch draw name use_integer sense cm ns so g2 := rfl

theorem scenDispatch_scen_append (draw : Nat → Nat → Rat) (s : String)
    ( use_integer : Bool) (sense : Int) (cm : Nat) (ns : Option Nat) (so : Nat) (g : RNG) :
    scenDispatch draw ("scen" ++ s) use_integer sense cm ns so g =
      scen_branch draw ("scen" ++ s) use_integer sense cm ns so g := by
  unfold scenDispatch
  rw [if_pos (Or.inl (take4_scen_append s))]

/-- Every scenario produced through the member dispatch with
`num_scens=None` carries the uniform sentinel and the `"ROOT"`-keyed
`DevotedAcreage` variables. -/
theorem scenDispatch_ok_fields (draw : Nat → Nat → Rat) (nm : String) ( use_integer : Bool)
    (sense : Int) (cm : Nat) (so : Nat) (g : RNG) (m : ScenModel) (g2 : RNG)
    (h : scenDispatch draw nm use_integer sense cm none so g = .ok (m, g2)) :
    m.rootVars = (crops_init cm).map (fun c => ("ROOT", VarId.mk "DevotedAcreage" c.1 c.2)) ∧
      m.probability = .uniform := by
  unfold scenDispatch at h
  split at h
  · unfold scen_branch at h
    split at h
    · exact absurd h (by simp)
    · split at h
      · exact absurd h (by simp)
      · split at h
        · simp_all
        · dsimp only at h
          split at h
          · exact absurd h (by simp)
          · rw [Except.ok.injEq, Prod.mk.injEq] at h
            obtain ⟨h1, -⟩ := h
            subst h1
            exact ⟨rfl, rfl⟩
  · exact absurd h (by simp)

/-- Pointwise characterization of a successful member build: the `j`-th
member is the result of the member dispatch on the `j`-th name (stated at
an arbitrary incoming stream state, which the dispatch ignores). -/
theorem buildMembers_ok_get (draw : Nat → Nat → Rat) ( use_integer : Bool) (sense : Int)
    (cm : Nat) (so : Nat) :
    ∀ (nms : List String) (g : RNG) (ms : List ScenModel) (gf : RNG),
      buildMembers draw use_integer sense cm so nms g = .ok (ms, gf) →
        ms.length = nms.length ∧
        ∀ j (hj : j < ms.length) (hn : j < nms.length), ∃ g2,
          scenDispatch draw (nms.get ⟨j, hn⟩) use_integer sense cm none so (RNG.seed 0) =
            .ok (ms.get ⟨j, hj⟩, g2) := by
  intro nms
  induction nms with
  | nil =>
    intro g ms gf h
    simp only [buildMembers, Except.ok.injEq, Prod.mk.injEq] at h
    obtain ⟨h1, -⟩ := h
    subst h1
    exact ⟨rfl, fun j hj => by simp at hj⟩
  | cons nm rest ih =>
    intro g ms gf h
    simp only [buildMembers] at h
    rcases hd : scenDispatch draw nm use_integer sense cm none so g with e | ⟨m, g'⟩ <;>
      rw [hd] at h <;> dsimp only at h
    · exact absurd h (by simp)
    · rcases ht : buildMembers draw use_integer sense cm so rest g' with e | ⟨ms', g''⟩ <;>
        rw [ht] at h <;> dsimp only at h
      · exact absurd h (by simp)
      · rw [Except.ok.injEq, Prod.mk.injEq] at h
        obtain ⟨h1, -⟩ := h
        subst h1
        obtain ⟨hlen, hget⟩ := ih g' ms' g'' ht
        refine ⟨by simp [hlen], ?_⟩
        intro j hj hn
        cases j with
        | zero =>
          refine ⟨g', ?_⟩
          have hswap : scenDispatch draw nm use_integer sense cm none so (RNG.seed 0) =
              scenDispatch draw nm use_integer sense cm none so g := by
            unfold scenDispatch
            split
            · exact scen_branch_state_independent draw nm use_integer sense cm none so _ _
            · rfl
          show scenDispatch draw nm use_integer sense cm none so (RNG.seed 0) = .ok (m, g')
          rw [hswap]
          exact hd
        | succ j =>
          exact hget j (by simpa using hj) (by simpa using hn)

/-- Every member of a successful build comes from the member dispatch
with `num_scens=None`. -/
theorem buildMembers_ok_mem (draw : Nat → Nat → Rat) ( use_integer : Bool) (sense : Int)
    (cm : Nat) (so : Nat) :
    ∀ (nms : List String) (g : RNG) (ms : List ScenModel) (gf : RNG),
      buildMembers draw use_integer sense cm so nms g = .ok (ms, gf) →
        ∀ m ∈ ms, ∃ nm g1 g2,
          scenDispatch draw nm use_integer sense cm none so g1 = .ok (m, g2) := by
  intro nms
  induction nms with
  | nil =>
    intro g ms gf h
    simp only [buildMembers, Except.ok.injEq, Prod.mk.injEq] at h
    obtain ⟨h1, -⟩ := h
    subst h1
    simp
  | cons nm rest ih =>
    intro g ms gf h
    simp only [buildMembers] at h
    rcases hd : scenDispatch draw nm use_integer sense cm none so g with e | ⟨m, g'⟩ <;>
      rw [hd] at h <;> dsimp only at h
    · exact absurd h (by simp)
    · rcases ht : buildMembers draw use_integer sense cm so rest g' with e | ⟨ms', g''⟩ <;>
        rw [ht] at h <;> dsimp only at h
      · exact absurd h (by simp)
      · rw [Except.ok.injEq, Prod.mk.injEq] at h
        obtain ⟨h1, -⟩ := h
        subst h1
        intro x hx
        rcases List.mem_cons.mp hx with hx | hx
        · subst hx
          exact ⟨nm, g, g', by rw [hd]⟩
        · exact ih g' ms' g'' ht x hx

/-- Anatomy of a successful bundle build: the parsed range, the passed
checks, the member build and the shape of every field of the result. -/
theorem bund_branch_ok (draw : Nat → Nat → Rat) (bunsize numbuns : Nat) (name : String)
    ( use_integer : Bool) (sense : Int) (cm : Nat) (ns : Option Nat) (so : Nat) (g : RNG)
    (b : BundleModel) (gf : RNG)
    (h : bund_branch draw bunsize numbuns name use_integer sense cm ns so g = .ok (b, gf)) :
    ∃ firstnum lastnum nsv ms,
      parseBundleName name = some (firstnum, lastnum) ∧
      ns = some nsv ∧
      ((lastnum : Int) - (firstnum : Int) + 1) = (bunsize : Int) ∧
      bunsize ≠ 0 ∧ nsv % bunsize ≠ 0 ∧ numbuns ≠ 0 ∧
      buildMembers draw use_integer sense cm (so + firstnum)
        ((List.range' firstnum (lastnum + 1 - firstnum)).map (fun i => "scen" ++ natStr i))
        g = .ok (ms, gf) ∧
      b = { name := name
            members := ms
            ref_vars := collectRefVars ms
            rootVars := (collectRefVars ms).filter (fun p => p.1 == "ROOT")
            probability := .val (1 / (numbuns : Rat)) } := by
  unfold bund_branch at h
  rcases hp : parseBundleName name with _ | ⟨firstnum, lastnum⟩ <;> rw [hp] at h <;> dsimp only at h
  · exact absurd h (by simp)
  · split at h
    · exact absurd h (by simp)
    · next hlen =>
      rcases hns : ns with _ | nsv <;> rw [hns] at h <;> dsimp only at h
      · exact absurd h (by simp)
      · split at h
        · exact absurd h (by simp)
        · next hbz =>
          split at h
          · exact absurd h (by simp)
          · next hmod =>
            rcases hbm : buildMembers draw use_integer sense cm (so + firstnum)
                ((List.range' firstnum (lastnum + 1 - firstnum)).map (fun i => "scen" ++ natStr i))
                g with e | ⟨ms, g'⟩ <;> rw [hbm] at h <;> dsimp only at h
            · exact absurd h (by simp)
            · split at h
              · exact absurd h (by simp)
              · next hnb =>
                rw [Except.ok.injEq, Prod.mk.injEq] at h
                obtain ⟨h1, h2⟩ := h
                subst h2
                exact ⟨firstnum, lastnum, nsv, ms, rfl, rfl, by omega, hbz, hmod, hnb, hbm, h1.symm⟩

/-! ### Helper lemmas: crop set and root-node variable union -/

theorem crops_init_snd_lt : ∀ m p, p ∈ crops_init m → p.2 < m := by
  intro m
  induction m with
  | zero => intro p hp; simp [crops_init] at hp
  | succ k ih =>
    intro p hp
    simp only [crops_init, List.mem_append, List.mem_cons, List.not_mem_nil, or_false] at hp
    rcases hp with hp | hp | hp | hp
    · exact Nat.lt_succ_of_lt (ih p hp)
    · subst hp; simp
    · subst hp; simp
    · subst hp; simp

theorem crops_init_nodup (m : Nat) : (crops_init m).Nodup := by
  induction m with
  | zero => simp [crops_init]
  | succ k ih =>
    refine List.Nodup.append ih (by simp) ?_
    intro p hp hq
    have hlt := crops_init_snd_lt k p hp
    simp only [List.mem_cons, List.not_mem_nil, or_false] at hq
    rcases hq with h | h | h <;> (subst h; simp at hlt)

/-- The canonical per-scenario root-node variable list has no
duplicates. -/
theorem rootVarsList_nodup (cm : Nat) :
    ((crops_init cm).map (fun c => (("ROOT" : String), VarId.mk "DevotedAcreage" c.1 c.2))).Nodup := by
  refine List.Nodup.map ?_ (crops_init_nodup cm)
  intro a b hab
  have h1 : a.1 = b.1 := by
    have := congrArg (fun p => p.2.crop) hab
    simpa using this
  have h2 : a.2 = b.2 := by
    have := congrArg (fun p => p.2.cropIdx) hab
    simpa using this
  exact Prod.ext h1 h2

theorem varUnion_nil (r : List (String × VarId)) : varUnion [] r = r := by
  unfold varUnion
  rw [List.nil_append]
  apply List.filter_eq_self.mpr
  intro p _
  simp

theorem varUnion_self (r : List (String × VarId)) : varUnion r r = r := by
  unfold varUnion
  have h : r.filter (fun p => !(decide (p ∈ r))) = [] := by
    apply List.filter_eq_nil_iff.mpr
    intro p hp
    simp [hp]
  rw [h, List.append_nil]

/-- Folding the union over members with identical root-variable lists
yields that common list. -/
theorem collectRefVars_const (r : List (String × VarId)) :
    ∀ ms : List ScenModel, (∀ m ∈ ms, m.rootVars = r) → ms ≠ [] →
      collectRefVars ms = r := by
  have haux : ∀ (ms : List ScenModel), (∀ m ∈ ms, m.rootVars = r) →
      List.foldl (fun acc m => varUnion acc m.rootVars) r ms = r := by
    intro ms
    induction ms with
    | nil => intro _; rfl
    | cons m rest ih =>
      intro hall
      simp only [List.foldl_cons, hall m (by simp)]
      rw [varUnion_self]
      exact ih (fun x hx => hall x (by simp [hx]))
  intro ms hall hne
  cases ms with
  | nil => exact absurd rfl hne
  | cons m rest =>
    unfold collectRefVars
    simp only [List.foldl_cons, hall m (by simp)]
    rw [varUnion_nil]
    exact haux rest (fun x hx => hall x (by simp [hx]))

/-- Filtering a list in which every entry is keyed by `"ROOT"` with the
`"ROOT"` key test is the identity. -/
theorem filter_ROOT_id (l : List (String × VarId)) (h : ∀ p ∈ l, p.1 = "ROOT") :
    l.filter (fun p => p.1 == "ROOT") = l := by
  apply List.filter_eq_self.mpr
  intro p hp
  simp [h p hp]

theorem getD_map_range' :
    ∀ (n s j : Nat) (f : Nat → String), j < n →
      ((List.range' s n).map f).getD j "" = f (s + j) := by
  intro n
  induction n with
  | zero => intro s j f h; omega
  | succ k ih =>
    intro s j f h
    cases j with
    | zero => simp [List.range']
    | succ j =>
      have hs : s + 1 + j = s + (j + 1) := by omega
      simp only [List.range', List.map_cons, List.getD_cons_succ]
      rw [← hs]
      exact ih (s + 1) j f (by omega)

/-! ### The claims -/

/-- C3: `createScenario` is deterministic: the scenario branch re-seeds
the shared stream with `scennum + seedoffset` before synthesizing, so its
result (model and final stream state alike) is independent of the
incoming stream state — two calls with identical name and configuration
give bit-identical stochastic parameter values, regardless of call order
or of how many times the scenario is regenerated. -/
theorem C3_createScenario_deterministic (draw : Nat → Nat → Rat) (name : String)
    ( use_integer : Bool) (sense : Int) (crops_multiplier : Nat) (num_scens : Option Nat)
    (seedoffset : Nat) (g1 g2 : RNG) :
    scen_branch draw name use_integer sense crops_multiplier num_scens seedoffset g1 =
      scen_branch draw name use_integer sense crops_multiplier num_scens seedoffset g2 := rfl

/-- C4: `Yield_init` over the crop set: a scenario with replicate group 0
gets exactly the unperturbed base values of its category and leaves the
generator state untouched; a scenario with replicate group ≠ 0 consumes
exactly one draw per crop parameter, in crop iteration order (the `j`-th
parameter adds the draw at stream position `g.pos + j`), advancing the
stream by the number of crops. -/
theorem C4_yield_draw_policy (draw : Nat → Nat → Rat) (base : BaseName)
    (scengroupnum : Nat) (crops : List (CropBase × Nat)) (g : RNG) :
    computeYields draw base scengroupnum crops g =
      if scengroupnum = 0 then
        (crops.map (fun c => Yield base c.1), g)
      else
        ((crops.enumFrom g.pos).map (fun p => Yield base p.2.1 + draw g.seedVal p.1),
         ⟨g.seedVal, g.pos + crops.length⟩) := by
  by_cases h : scengroupnum = 0
  · rw [if_pos h, h]
    exact computeYields_group_zero draw base crops g
  · rw [if_neg h]
    exact computeYields_group_pos draw base h crops g

/-- A successful scenario build implies the sense was recognized. -/
theorem scen_branch_ok_sense (draw : Nat → Nat → Rat) (name : String) ( use_integer : Bool)
    (sense : Int) (cm : Nat) (ns : Option Nat) (so : Nat) (g : RNG) (m : ScenModel) (g2 : RNG)
    (h : scen_branch draw name use_integer sense cm ns so g = .ok (m, g2)) :
    sense = pyoMinimize ∨ sense = pyoMaximize := by
  unfold scen_branch at h
  split at h
  · exact absurd h (by simp)
  · split at h
    · exact absurd h (by simp)
    · next hcond =>
      by_cases h1 : sense = pyoMinimize
      · exact Or.inl h1
      · by_cases h2 : sense = pyoMaximize
        · exact Or.inr h2
        · exact absurd ⟨h1, h2⟩ hcond

/-- The probability a successful scenario build attaches is `1/num_scens`
when the count is known and the `"uniform"` sentinel otherwise. -/
theorem scen_branch_ok_prob (draw : Nat → Nat → Rat) (name : String) ( use_integer : Bool)
    (sense : Int) (cm : Nat) (ns : Option Nat) (so : Nat) (g : RNG) (m : ScenModel) (g2 : RNG)
    (h : scen_branch draw name use_integer sense cm ns so g = .ok (m, g2)) :
    m.probability = match ns with
      | some n => Prob.val (1 / (n : Rat))
      | none => Prob.uniform := by
  cases ns with
  | none =>
    unfold scen_branch at h
    split at h
    · exact absurd h (by simp)
    · split at h
      · exact absurd h (by simp)
      · dsimp only at h
        split at h
        · exact absurd h (by simp)
        · rw [Except.ok.injEq, Prod.mk.injEq] at h
          obtain ⟨h1, -⟩ := h
          subst h1
          rfl
  | some n =>
    unfold scen_branch at h
    split at h
    · exact absurd h (by simp)
    · split at h
      · exact absurd h (by simp)
      · dsimp only at h
        split at h
        · exact absurd h (by simp)
        · split at h
          · exact absurd h (by simp)
          · next hn0 =>
            rw [Except.ok.injEq, Prod.mk.injEq] at h
            obtain ⟨h1, -⟩ := h
            subst h1
            simp [hn0]

/-- C9: the yield category used to build scenario `i` is `i mod 3`
(0 → BelowAverage, 1 → Average, 2 → AboveAverage) and the replicate
group is `i div 3`. -/
theorem C9_category_and_group_mapping (draw : Nat → Nat → Rat) (i : Nat)
    ( use_integer : Bool) (sense : Int) (crops_multiplier : Nat) (num_scens : Option Nat)
    (seedoffset : Nat) (g : RNG)
    (hs : sense = pyoMinimize ∨ sense = pyoMaximize)
    (hns : num_scens ≠ some 0) :
    Except.map (fun p => (p.1.baseUsed, p.1.groupUsed))
      (scen_branch draw ("scen" ++ natStr i) use_integer sense crops_multiplier
        num_scens seedoffset g) =
      .ok ((if i % 3 = 0 then BaseName.BelowAverageScenario
            else if i % 3 = 1 then .AverageScenario
            else .AboveAverageScenario), i / 3) := by
  rw [scen_branch_eq draw _ use_integer sense crops_multiplier num_scens seedoffset g i
    (extract_num_scen i) hs hns]
  rfl

/-- Witness for C9 at the concrete indices the claim singles out:
scen0, scen1, scen2 map to BelowAverage, Average, AboveAverage with
replicate group 0, and scen3 maps to BelowAverage with group 1. -/
theorem C9_witness :
    Except.map (fun p => (p.1.baseUsed, p.1.groupUsed))
      (scen_branch drawZero ("scen" ++ natStr 0) false pyoMinimize 1 none 0 (RNG.seed 0)) =
      .ok (.BelowAverageScenario, 0) ∧
    Except.map (fun p => (p.1.baseUsed, p.1.groupUsed))
      (scen_branch drawZero ("scen" ++ natStr 1) false pyoMinimize 1 none 0 (RNG.seed 0)) =
      .ok (.AverageScenario, 0) ∧
    Except.map (fun p => (p.1.baseUsed, p.1.groupUsed))
      (scen_branch drawZero ("scen" ++ natStr 2) false pyoMinimize 1 none 0 (RNG.seed 0)) =
      .ok (.AboveAverageScenario, 0) ∧
    Except.map (fun p => (p.1.baseUsed, p.1.groupUsed))
      (scen_branch drawZero ("scen" ++ natStr 3) false pyoMinimize 1 none 0 (RNG.seed 0)) =
      .ok (.BelowAverageScenario, 1) := by
  refine ⟨?_, ?_, ?_, ?_⟩
  · have h := C9_category_and_group_mapping drawZero 0 false pyoMinimize 1 none 0
      (RNG.seed 0) (Or.inl rfl) (by simp)
    simpa using h
  · have h := C9_category_and_group_mapping drawZero 1 false pyoMinimize 1 none 0
      (RNG.seed 0) (Or.inl rfl) (by simp)
    simpa using h
  · have h := C9_category_and_group_mapping drawZero 2 false pyoMinimize 1 none 0
      (RNG.seed 0) (Or.inl rfl) (by simp)
    simpa using h
  · have h := C9_category_and_group_mapping drawZero 3 false pyoMinimize 1 none 0
      (RNG.seed 0) (Or.inl rfl) (by simp)
    simpa using h

/-- C5: with bundling disabled, the `i`-th name produced by
`scenario_names_creator` resolves back to index `i` through the
scenario-branch name resolution. -/
theorem C5_name_round_trip (n i : Nat) (h : i < n) :
    resolve_scen_name ((scenario_names_creator 0 n none).getD i "") = some i := by
  have hname : (scenario_names_creator 0 n none).getD i "" = "scen" ++ natStr i := by
    unfold scenario_names_creator
    simp only [Option.getD_none, if_pos rfl]
    have := getD_map_range' n 0 i (fun k => "scen" ++ natStr k) h
    simpa using this
  rw [hname]
  unfold resolve_scen_name
  rw [if_pos (Or.inl (take4_scen_append _))]
  exact extract_num_scen i

/-- Witness for C5 at `n = 5`, `i = 3`. -/
theorem C5_witness :
    3 < 5 ∧ resolve_scen_name ((scenario_names_creator 0 5 none).getD 3 "") = some 3 :=
  ⟨by decide, C5_name_round_trip 5 3 (by decide)⟩

/-- C6: probability attachment.  A plain scenario built with a known
`num_scens = n` carries probability exactly `1/n`; one built with
`num_scens = None` carries the `"uniform"` sentinel; a successfully
built bundle carries probability exactly `1/numbuns`. -/
theorem C6_probability_attachment (draw : Nat → Nat → Rat) (bunsize numbuns : Nat)
    (name : String) ( use_integer : Bool) (sense : Int) (crops_multiplier : Nat)
    (seedoffset : Nat) (g : RNG) :
    (∀ (n : Nat) (m : ScenModel) (g2 : RNG),
      scen_branch draw name use_integer sense crops_multiplier (some n) seedoffset g =
        .ok (m, g2) → m.probability = .val (1 / (n : Rat))) ∧
    (∀ (m : ScenModel) (g2 : RNG),
      scen_branch draw name use_integer sense crops_multiplier none seedoffset g =
        .ok (m, g2) → m.probability = .uniform) ∧
    (∀ (ns : Option Nat) (b : BundleModel) (g2 : RNG),
      bund_branch draw bunsize numbuns name use_integer sense crops_multiplier ns seedoffset g =
        .ok (b, g2) → b.probability = .val (1 / (numbuns : Rat))) := by
  refine ⟨?_, ?_, ?_⟩
  · intro n m g2 h
    exact scen_branch_ok_prob draw name use_integer sense crops_multiplier (some n)
      seedoffset g m g2 h
  · intro m g2 h
    exact scen_branch_ok_prob draw name use_integer sense crops_multiplier none
      seedoffset g m g2 h
  · intro ns b g2 h
    obtain ⟨f, l, nsv, ms, -, -, -, -, -, -, -, hb⟩ :=
      bund_branch_ok draw bunsize numbuns name use_integer sense crops_multiplier ns
        seedoffset g b g2 h
    rw [hb]

/-- Witness for C6: for `num_scens = 6` the scenario `scen0` carries
probability 1/6; with `num_scens = None` it carries the uniform
sentinel; with 3 bundles, `bundle_0_1` carries probability 1/3. -/
theorem C6_witness :
    Except.map (fun p => p.1.probability)
      (scen_branch drawZero "scen0" false pyoMinimize 1 (some 6) 0 (RNG.seed 0)) =
      .ok (.val (1 / 6)) ∧
    Except.map (fun p => p.1.probability)
      (scen_branch drawZero "scen0" false pyoMinimize 1 none 0 (RNG.seed 0)) =
      .ok .uniform ∧
    Except.map (fun p => p.1.probability)
      (bund_branch drawZero 2 3 "bundle_0_1" false pyoMinimize 1 (some 3) 0 (RNG.seed 0)) =
      .ok (.val (1 / 3)) := by
  refine ⟨?_, ?_, ?_⟩
  · rcases hE : scen_branch drawZero "scen0" false pyoMinimize 1 (some 6) 0 (RNG.seed 0)
      with e | ⟨m, g2⟩
    · have hT : (scen_branch drawZero "scen0" false pyoMinimize 1 (some 6) 0
          (RNG.seed 0)).toOption.isSome = true := by decide
      rw [hE] at hT
      simp [Except.toOption] at hT
    · have hp := (C6_probability_attachment drawZero 2 3 "scen0" false pyoMinimize 1 0
        (RNG.seed 0)).1 6 m g2 hE
      show Except.ok m.probability = Except.ok (Prob.val (1 / 6))
      rw [hp]
      have h6 : ((6 : Nat) : Rat) = 6 := by norm_num
      rw [h6]
  · rcases hE : scen_branch drawZero "scen0" false pyoMinimize 1 none 0 (RNG.seed 0)
      with e | ⟨m, g2⟩
    · have hT : (scen_branch drawZero "scen0" false pyoMinimize 1 none 0
          (RNG.seed 0)).toOption.isSome = true := by decide
      rw [hE] at hT
      simp [Except.toOption] at hT
    · have hp := (C6_probability_attachment drawZero 2 3 "scen0" false pyoMinimize 1 0
        (RNG.seed 0)).2.1 m g2 hE
      show Except.ok m.probability = Except.ok Prob.uniform
      rw [hp]
  · rcases hE : bund_branch drawZero 2 3 "bundle_0_1" false pyoMinimize 1 (some 3) 0
      (RNG.seed 0) with e | ⟨b, g2⟩
    · have hT : (bund_branch drawZero 2 3 "bundle_0_1" false pyoMinimize 1 (some 3) 0
          (RNG.seed 0)).toOption.isSome = true := by decide
      rw [hE] at hT
      simp [Except.toOption] at hT
    · have hp := (C6_probability_attachment drawZero 2 3 "bundle_0_1" false pyoMinimize 1 0
        (RNG.seed 0)).2.2 (some 3) b g2 hE
      show Except.ok b.probability = Except.ok (Prob.val (1 / 3))
      rw [hp]
      have h3 : ((3 : Nat) : Rat) = 3 := by norm_num
      rw [h3]

/-- C10: inside the bundle branch every member scenario is created with
`num_scens=None` (the `bunkwargs` override), so each member carries the
uniform probability sentinel; only the enclosing bundle carries the
numeric probability `1/numbuns`. -/
theorem C10_member_uniform_sentinel (draw : Nat → Nat → Rat) (bunsize numbuns : Nat)
    (name : String) ( use_integer : Bool) (sense : Int) (crops_multiplier : Nat)
    (num_scens : Option Nat) (seedoffset : Nat) (g : RNG) (b : BundleModel) (gf : RNG)
    (h : bund_branch draw bunsize numbuns name use_integer sense crops_multiplier
      num_scens seedoffset g = .ok (b, gf)) :
    (∀ m ∈ b.members, m.probability = .uniform) ∧
      b.probability = .val (1 / (numbuns : Rat)) := by
  obtain ⟨f, l, nsv, ms, -, -, -, -, -, -, hbm, hb⟩ :=
    bund_branch_ok draw bunsize numbuns name use_integer sense crops_multiplier num_scens
      seedoffset g b gf h
  subst hb
  refine ⟨?_, rfl⟩
  intro m hm
  obtain ⟨nm, g1, g2, hd⟩ := buildMembers_ok_mem draw use_integer sense crops_multiplier
    (seedoffset + f) _ g ms gf hbm m hm
  exact (scenDispatch_ok_fields draw nm use_integer sense crops_multiplier
    (seedoffset + f) g1 m g2 hd).2

/-- Witness for C10: the two members of `bundle_0_1` both carry the
uniform sentinel although the bundle call received `num_scens = 3`, and
the bundle itself carries 1/3. -/
theorem C10_witness :
    Except.map (fun p => (p.1.members.map (fun m => m.probability), p.1.probability))
      (bund_branch drawZero 2 3 "bundle_0_1" false pyoMinimize 1 (some 3) 0 (RNG.seed 0)) =
      .ok ([.uniform, .uniform], .val (1 / 3)) := by
  rcases hE : bund_branch drawZero 2 3 "bundle_0_1" false pyoMinimize 1 (some 3) 0
    (RNG.seed 0) with e | ⟨b, g2⟩
  · have hT : (bund_branch drawZero 2 3 "bundle_0_1" false pyoMinimize 1 (some 3) 0
        (RNG.seed 0)).toOption.isSome = true := by decide
    rw [hE] at hT
    simp [Except.toOption] at hT
  · obtain ⟨hall, hprob⟩ := C10_member_uniform_sentinel drawZero 2 3 "bundle_0_1" false
      pyoMinimize 1 (some 3) 0 (RNG.seed 0) b g2 hE
    have hlen : b.members.length = 2 := by
      have hL : Except.map (fun p => p.1.members.length)
          (bund_branch drawZero 2 3 "bundle_0_1" false pyoMinimize 1 (some 3) 0
            (RNG.seed 0)) = .ok 2 := by rfl
      rw [hE] at hL
      exact Except.ok.inj hL
    have hmap : b.members.map (fun m => m.probability) = [.uniform, .uniform] := by
      have : b.members.map (fun m => m.probability) = List.replicate 2 Prob.uniform := by
        apply List.eq_replicate_iff.mpr
        refine ⟨by simp [hlen], ?_⟩
        intro x hx
        obtain ⟨m, hm, hxm⟩ := List.mem_map.mp hx
        rw [← hxm]
        exact hall m hm
      simpa using this
    show Except.ok (b.members.map (fun m => m.probability), b.probability) =
      Except.ok ([Prob.uniform, Prob.uniform], Prob.val (1 / 3))
    rw [hmap, hprob]
    have h3 : ((3 : Nat) : Rat) = 3 := by norm_num
    rw [h3]

/-- C7: root-node aggregation of a successful bundle.  Every member
contributes nonanticipative variables only at the single shared
`"ROOT"` node — so the `MultiNodeBundleError` condition (a member
contributing outside the root) never arises — and the bundle's
root-node variable set is exactly the union of the members' root-node
variables: it equals the collected reference variables, has no
duplicates, and coincides with the canonical per-scenario root list
(no extra nodes, count equal to the per-scenario count). -/
theorem C7_root_node_aggregation (draw : Nat → Nat → Rat) (bunsize numbuns : Nat)
    (name : String) ( use_integer : Bool) (sense : Int) (crops_multiplier : Nat)
    (num_scens : Option Nat) (seedoffset : Nat) (g : RNG) (b : BundleModel) (gf : RNG)
    (h : bund_branch draw bunsize numbuns name use_integer sense crops_multiplier
      num_scens seedoffset g = .ok (b, gf)) :
    (∀ m ∈ b.members, ∀ p ∈ m.rootVars, p.1 = "ROOT") ∧
    b.rootVars = collectRefVars b.members ∧
    b.rootVars.Nodup ∧
    b.rootVars = (crops_init crops_multiplier).map
      (fun c => ("ROOT", VarId.mk "DevotedAcreage" c.1 c.2)) := by
  obtain ⟨f, l, nsv, ms, -, -, hfl, hbz, -, -, hbm, hb⟩ :=
    bund_branch_ok draw bunsize numbuns name use_integer sense crops_multiplier num_scens
      seedoffset g b gf h
  subst hb
  have hmemroot : ∀ m ∈ ms, m.rootVars = (crops_init crops_multiplier).map
      (fun c => ("ROOT", VarId.mk "DevotedAcreage" c.1 c.2)) := by
    intro m hm
    obtain ⟨nm, g1, g2, hd⟩ := buildMembers_ok_mem draw use_integer sense crops_multiplier
      (seedoffset + f) _ g ms gf hbm m hm
    exact (scenDispatch_ok_fields draw nm use_integer sense crops_multiplier
      (seedoffset + f) g1 m g2 hd).1
  have hne : ms ≠ [] := by
    obtain ⟨hlen, -⟩ := buildMembers_ok_get draw use_integer sense crops_multiplier
      (seedoffset + f) _ g ms gf hbm
    intro hnil
    rw [hnil] at hlen
    simp only [List.length_nil, List.length_map, List.length_range'] at hlen
    omega
  have hcoll : collectRefVars ms = (crops_init crops_multiplier).map
      (fun c => ("ROOT", VarId.mk "DevotedAcreage" c.1 c.2)) :=
    collectRefVars_const _ ms hmemroot hne
  have hROOT : ∀ p ∈ (crops_init crops_multiplier).map
      (fun c => (("ROOT" : String), VarId.mk "DevotedAcreage" c.1 c.2)), p.1 = "ROOT" := by
    intro p hp
    obtain ⟨c, -, hc⟩ := List.mem_map.mp hp
    rw [← hc]
  have hfilter : (collectRefVars ms).filter (fun p => p.1 == "ROOT") = collectRefVars ms := by
    rw [hcoll]
    exact filter_ROOT_id _ hROOT
  refine ⟨?_, ?_, ?_, ?_⟩
  · intro m hm p hp
    rw [hmemroot m hm] at hp
    exact hROOT p hp
  · exact hfilter
  · rw [hfilter, hcoll]
    exact rootVarsList_nodup crops_multiplier
  · rw [hfilter, hcoll]

/-- Witness for C7: the two-member bundle `bundle_0_1` (one crop copy)
ends up with exactly the three per-scenario root-node variables, all
keyed by `"ROOT"`. -/
theorem C7_witness :
    Except.map (fun p => p.1.rootVars)
      (bund_branch drawZero 2 3 "bundle_0_1" false pyoMinimize 1 (some 3) 0 (RNG.seed 0)) =
      .ok [("ROOT", VarId.mk "DevotedAcreage" .WHEAT 0),
           ("ROOT", VarId.mk "DevotedAcreage" .CORN 0),
           ("ROOT", VarId.mk "DevotedAcreage" .SUGAR_BEETS 0)] := by
  rcases hE : bund_branch drawZero 2 3 "bundle_0_1" false pyoMinimize 1 (some 3) 0
    (RNG.seed 0) with e | ⟨b, g2⟩
  · have hT : (bund_branch drawZero 2 3 "bundle_0_1" false pyoMinimize 1 (some 3) 0
        (RNG.seed 0)).toOption.isSome = true := by decide
    rw [hE] at hT
    simp [Except.toOption] at hT
  · obtain ⟨-, -, -, hcanon⟩ := C7_root_node_aggregation drawZero 2 3 "bundle_0_1" false
      pyoMinimize 1 (some 3) 0 (RNG.seed 0) b g2 hE
    show Except.ok b.rootVars = _
    rw [hcanon]
    rfl

/-- C2: the divisibility assert of the bundle branch is inverted
(`assert num_scens % bunsize != 0` — its own message, "we need equal
sized bundels", and the matching check in `bundle_hack`
(`cfg.num_scens % cfg.bundle_size == 0`) both demand divisibility).
Consequently `createBundle` on `bundle_0_1` with `bundle_size = 2` and
`num_scens = 6` (range length = bundle size, bundle size divides the
count — the valid case per the claim) raises, while with the
non-divisible `num_scens = 5` (which the claim says must raise
`BundleSizeMismatchError`) it succeeds. -/
theorem C2_inverted_divisibility_assert :
    scenario_creator drawZero 2 3 "bundle_0_1" false pyoMinimize 1 (some 6) 0 (RNG.seed 0) =
      .error .bundleSizeMismatch ∧
    (scenario_creator drawZero 2 3 "bundle_0_1" false pyoMinimize 1 (some 5) 0
      (RNG.seed 0)).toOption.isSome = true := by
  exact ⟨by rfl, by decide⟩

theorem get?_map_range' :
    ∀ (n s j : Nat) (f : Nat → String), j < n →
      ((List.range' s n).map f).get? j = some (f (s + j)) := by
  intro n
  induction n with
  | zero => intro s j f h; omega
  | succ k ih =>
    intro s j f h
    cases j with
    | zero => simp [List.range']
    | succ j =>
      have hs : s + 1 + j = s + (j + 1) := by omega
      have hrec := ih (s + 1) j f (by omega)
      rw [hs] at hrec
      simpa [List.range'] using hrec

/-- Optional-lookup form of the member characterization: the `j`-th member of a
successful build is the dispatch result on the `j`-th name. -/
theorem buildMembers_ok_get? (draw : Nat → Nat → Rat) ( use_integer : Bool) (sense : Int)
    (cm : Nat) (so : Nat) :
    ∀ (nms : List String) (g : RNG) (ms : List ScenModel) (gf : RNG),
      buildMembers draw use_integer sense cm so nms g = .ok (ms, gf) →
        ∀ j (mem : ScenModel), ms.get? j = some mem → ∃ nm g2,
          nms.get? j = some nm ∧
          scenDispatch draw nm use_integer sense cm none so (RNG.seed 0) = .ok (mem, g2) := by
  intro nms
  induction nms with
  | nil =>
    intro g ms gf h
    simp only [buildMembers, Except.ok.injEq, Prod.mk.injEq] at h
    obtain ⟨h1, -⟩ := h
    subst h1
    intro j mem hmem
    simp at hmem
  | cons nm rest ih =>
    intro g ms gf h
    simp only [buildMembers] at h
    rcases hd : scenDispatch draw nm use_integer sense cm none so g with e | ⟨m, g'⟩ <;>
      rw [hd] at h <;> dsimp only at h
    · exact absurd h (by simp)
    · rcases ht : buildMembers draw use_integer sense cm so rest g' with e | ⟨ms', g''⟩ <;>
        rw [ht] at h <;> dsimp only at h
      · exact absurd h (by simp)
      · rw [Except.ok.injEq, Prod.mk.injEq] at h
        obtain ⟨h1, -⟩ := h
        subst h1
        intro j mem hmem
        cases j with
        | zero =>
          rw [List.get?_cons_zero, Option.some.injEq] at hmem
          subst hmem
          refine ⟨nm, g', rfl, ?_⟩
          have hswap : scenDispatch draw nm use_integer sense cm none so (RNG.seed 0) =
              scenDispatch draw nm use_integer sense cm none so g := by
            unfold scenDispatch
            split
            · exact scen_branch_state_independent draw nm use_integer sense cm none so _ _
            · rfl
          rw [hswap]
          exact hd
        | succ j =>
          rw [List.get?_cons_succ] at hmem
          exact ih g' ms' g'' ht j mem hmem

/-- The member scenario `scen{first+j}` built inside the bundle branch
carries stochastic Yield values bit-identical to those of a standalone
scenario build of the same name with seed offset
`seedoffset + firstnum`. -/
theorem bund_member_yieldVals (draw : Nat → Nat → Rat)
    (bunsize numbuns : Nat) (name : String) ( use_integer : Bool) (sense : Int) (cm : Nat)
    (ns : Option Nat) (so : Nat) (g : RNG) (b : BundleModel) (gf : RNG)
    (firstnum lastnum : Nat)
    (hok : bund_branch draw bunsize numbuns name use_integer sense cm ns so g = .ok (b, gf))
    (hparse : parseBundleName name = some (firstnum, lastnum))
    (j : Nat) (mem : ScenModel) (hmem : b.members.get? j = some mem)
    (ns' : Option Nat) (hns' : ns' ≠ some 0) (g' : RNG) :
    Except.map (fun p => p.1.yieldVals)
      (scen_branch draw ("scen" ++ natStr (firstnum + j)) use_integer sense cm ns'
        (so + firstnum) g') = .ok mem.yieldVals := by
  obtain ⟨f, l, nsv, ms, hp, -, -, -, -, -, hbm, hb⟩ :=
    bund_branch_ok draw bunsize numbuns name use_integer sense cm ns so g b gf hok
  rw [hparse, Option.some.injEq, Prod.mk.injEq] at hp
  obtain ⟨hf, hl⟩ := hp
  subst hf
  subst hl
  subst hb
  dsimp only at hmem
  obtain ⟨nm, g2, hnm, hd⟩ := buildMembers_ok_get? draw use_integer sense cm
    (so + firstnum) _ g ms gf hbm j mem hmem
  have hjn : j < lastnum + 1 - firstnum := by
    by_contra hge
    rw [List.get?_eq_none.mpr (by simp; omega)] at hnm
    exact absurd hnm (by simp)
  rw [get?_map_range' _ _ _ _ hjn, Option.some.injEq] at hnm
  subst hnm
  rw [scenDispatch_scen_append] at hd
  have hs := scen_branch_ok_sense draw _ use_integer sense cm none (so + firstnum) _ mem g2 hd
  rw [scen_branch_eq draw _ use_integer sense cm none (so + firstnum) _ (firstnum + j)
    (extract_num_scen _) hs (by simp)] at hd
  rw [Except.ok.injEq, Prod.mk.injEq] at hd
  obtain ⟨hm, -⟩ := hd
  rw [scen_branch_eq draw _ use_integer sense cm ns' (so + firstnum) g' (firstnum + j)
    (extract_num_scen _) hs hns']
  rw [← hm]
  rfl


/-- C1 (amended): the member scenario `scen{first+j}` built inside the
bundle branch carries stochastic Yield values bit-identical to those of
a standalone scenario build of the same name with seed offset
`seedoffset + firstnum` — i.e. the global offset shifted by the bundle's
first index (the member loop passes names with global indices **and**
adds `firstnum` to the seed offset, so the unshifted standalone scenario
of the original claim is matched only when `firstnum = 0`). -/
theorem C1_bundle_member_matches_shifted_standalone (draw : Nat → Nat → Rat)
    (bunsize numbuns : Nat) (name : String) ( use_integer : Bool) (sense : Int) (cm : Nat)
    (ns : Option Nat) (so : Nat) (g : RNG) (b : BundleModel) (gf : RNG)
    (firstnum lastnum : Nat)
    (hok : bund_branch draw bunsize numbuns name use_integer sense cm ns so g = .ok (b, gf))
    (hparse : parseBundleName name = some (firstnum, lastnum))
    (j : Nat) (mem : ScenModel) (hmem : b.members.get? j = some mem)
    (ns' : Option Nat) (hns' : ns' ≠ some 0) (g' : RNG) :
    Except.map (fun p => p.1.yieldVals)
      (scen_branch draw ("scen" ++ natStr (firstnum + j)) use_integer sense cm ns'
        (so + firstnum) g') = .ok mem.yieldVals :=
  bund_member_yieldVals draw bunsize numbuns name use_integer sense cm ns so g b gf
    firstnum lastnum hok hparse j mem hmem ns' hns' g'

/-- Counterexample to C1 as stated: in the bundle `bundle_2_3` (first
index 2, base seed offset 0) the member `scen3` draws from seed
`3 + 0 + 2 = 5`, while a standalone `scen3` with the same global offset
0 draws from seed 3: with the seed-revealing variate function their
Yield values differ ([7, 37/5, 21] vs [5, 27/5, 19]). -/
theorem C1_counterexample :
    Except.map (fun p => (p.1.members.get? 1).map (fun m => m.yieldVals))
      (bund_branch drawSeed 2 3 "bundle_2_3" false pyoMinimize 1 (some 3) 0 (RNG.seed 0)) =
      .ok (some [7, 37/5, 21]) ∧
    Except.map (fun p => p.1.yieldVals)
      (scen_branch drawSeed "scen3" false pyoMinimize 1 (some 3) 0 (RNG.seed 0)) =
      .ok [5, 27/5, 19] ∧
    some [(7 : Rat), 37/5, 21] ≠ some [(5 : Rat), 27/5, 19] := by
  refine ⟨?_, ?_, ?_⟩
  · rcases hE : bund_branch drawSeed 2 3 "bundle_2_3" false pyoMinimize 1 (some 3) 0
      (RNG.seed 0) with e | ⟨b, gf⟩
    · have hT : (bund_branch drawSeed 2 3 "bundle_2_3" false pyoMinimize 1 (some 3) 0
          (RNG.seed 0)).toOption.isSome = true := by decide
      rw [hE] at hT
      simp [Except.toOption] at hT
    · have hlen : b.members.length = 2 := by
        have hL : Except.map (fun p => p.1.members.length)
            (bund_branch drawSeed 2 3 "bundle_2_3" false pyoMinimize 1 (some 3) 0
              (RNG.seed 0)) = .ok 2 := by rfl
        rw [hE] at hL
        exact Except.ok.inj hL
      have h1 : 1 < b.members.length := by omega
      have hsome : b.members.get? 1 = some (b.members.get ⟨1, h1⟩) := List.get?_eq_get h1
      have happ := bund_member_yieldVals drawSeed 2 3 "bundle_2_3" false pyoMinimize 1
        (some 3) 0 (RNG.seed 0) b gf 2 3 hE (by decide) 1 (b.members.get ⟨1, h1⟩) hsome
        (some 3) (by simp) (RNG.seed 0)
      rw [scen_branch_eq drawSeed _ false pyoMinimize 1 (some 3) (0 + 2) (RNG.seed 0) (2 + 1)
        (extract_num_scen _) (Or.inl rfl) (by simp)] at happ
      have hg : (2 + 1) / 3 ≠ 0 := by norm_num
      simp only [Except.map] at happ
      rw [computeYields_group_pos drawSeed _ hg] at happ
      simp [crops_init, List.enumFrom, Yield, drawSeed, RNG.seed] at happ
      have hyv : (b.members.get ⟨1, h1⟩).yieldVals = [7, 37/5, 21] := by
        have h3 : b.members[1].yieldVals = ([7, 37/5, 21] : List Rat) := by
          rw [← happ]
          norm_num
        exact h3
      show Except.ok ((b.members.get? 1).map (fun m => m.yieldVals)) = _
      rw [hsome, Option.map_some', hyv]
  · have he3 : extract_num "scen3" = some 3 := by decide
    rw [scen_branch_eq drawSeed "scen3" false pyoMinimize 1 (some 3) 0 (RNG.seed 0) 3 he3
      (Or.inl rfl) (by simp)]
    have hg : (3 : Nat) / 3 ≠ 0 := by norm_num
    simp only [Except.map]
    rw [computeYields_group_pos drawSeed _ hg]
    simp [crops_init, List.enumFrom, Yield, drawSeed, RNG.seed]
    norm_num
  · intro h
    rw [Option.some.injEq] at h
    simp only [List.cons.injEq] at h
    exact absurd h.1 (by norm_num)

/-- Witness for the amended C1: in `bundle_0_1` (first index 0) the
member `scen0` is bit-identical to the standalone `scen0` built with
seed offset `0 + 0`. -/
theorem C1_witness :
    Except.map (fun p => p.1.yieldVals)
      (scen_branch drawSeed ("scen" ++ natStr (0 + 0)) false pyoMinimize 1 none (0 + 0)
        (RNG.seed 0)) = .ok [2, 12/5, 16] := by
  rcases hE : bund_branch drawSeed 2 3 "bundle_0_1" false pyoMinimize 1 (some 3) 0
    (RNG.seed 0) with e | ⟨b, gf⟩
  · have hT : (bund_branch drawSeed 2 3 "bundle_0_1" false pyoMinimize 1 (some 3) 0
        (RNG.seed 0)).toOption.isSome = true := by decide
    rw [hE] at hT
    simp [Except.toOption] at hT
  · have hY : Except.map (fun p => (p.1.members.get? 0).map (fun m => m.yieldVals))
        (bund_branch drawSeed 2 3 "bundle_0_1" false pyoMinimize 1 (some 3) 0
          (RNG.seed 0)) = .ok (some [2, 12/5, 16]) := by rfl
    rw [hE] at hY
    have hY' : (b.members.get? 0).map (fun m => m.yieldVals) = some [2, 12/5, 16] :=
      Except.ok.inj hY
    rcases hmm : b.members.get? 0 with _ | mem
    · rw [hmm] at hY'
      exact absurd hY' (by simp)
    · rw [hmm] at hY'
      rw [Option.map_some', Option.some.injEq] at hY'
      have happ := C1_bundle_member_matches_shifted_standalone drawSeed 2 3 "bundle_0_1"
        false pyoMinimize 1 (some 3) 0 (RNG.seed 0) b gf 0 1 hE (by rfl) 0 mem hmm
        none (by simp) (RNG.seed 0)
      rw [happ, hY']

/-- When the field extraction fails in Python, the embedded parse
fails as well. -/
theorem parseBundleName_none_of_fieldsFail (name : String)
    (h : bundleFieldsFail name = true) : parseBundleName name = none := by
  unfold bundleFieldsFail at h
  unfold parseBundleName
  rcases h1 : (splitUS name.toList).get? 1 with _ | f1 <;>
    rcases h2 : (splitUS name.toList).get? 2 with _ | f2
  · rfl
  · rfl
  · rfl
  · rw [h1, h2] at h
    dsimp only at h
    rw [Bool.or_eq_true, Option.isNone_iff_eq_none, Option.isNone_iff_eq_none] at h
    dsimp only
    rcases hd1 : pyInt? f1 with _ | i1
    · have hn : decToNat? f1 = none := by unfold decToNat?; rw [hd1]
      rw [hn]
    · rcases h with h | h
      · rw [h] at hd1
        exact absurd hd1 (by simp)
      · have hn : decToNat? f2 = none := by unfold decToNat?; rw [h]
        rw [hn]
        rcases decToNat? f1 with _ | j1 <;> rfl

/-- C8 (amended): name resolution failures.  A name whose first four
characters lowercase to neither `"scen"` nor `"bund"` fails with
`InvalidNameError`; a name matching the scenario form (case-insensitively)
with no trailing digits fails with `InvalidNameError`; and a name
matching the bundle form (case-insensitively) fails with
`InvalidNameError` whenever its field extraction fails in Python —
the second or third `"_"`-separated field is missing (`IndexError`) or
not parseable by Python's `int` (`ValueError`).  (For bundle-form names
the original claim's "no trailing digits" condition is wrong: trailing
junk after two valid numeric fields is accepted — see the
counterexample.) -/
theorem C8_invalid_name_resolution (draw : Nat → Nat → Rat) (bunsize numbuns : Nat)
    (name : String) ( use_integer : Bool) (sense : Int) (crops_multiplier : Nat)
    (num_scens : Option Nat) (seedoffset : Nat) (g : RNG) :
    (((name.toList.take 4).map Char.toLower ≠ "scen".toList ∧
      (name.toList.take 4).map Char.toLower ≠ "bund".toList) →
      scenario_creator draw bunsize numbuns name use_integer sense crops_multiplier
        num_scens seedoffset g = .error .invalidName) ∧
    (((name.toList.take 4).map Char.toLower = "scen".toList ∧ extract_num name = none) →
      scenario_creator draw bunsize numbuns name use_integer sense crops_multiplier
        num_scens seedoffset g = .error .invalidName) ∧
    (((name.toList.take 4).map Char.toLower = "bund".toList ∧ bundleFieldsFail name = true) →
      scenario_creator draw bunsize numbuns name use_integer sense crops_multiplier
        num_scens seedoffset g = .error .invalidName) := by
  refine ⟨?_, ?_, ?_⟩
  · rintro ⟨h1, h2⟩
    have hA : ¬(name.toList.take 4 = "scen".toList ∨ name.toList.take 4 = "Scen".toList) := by
      rintro (h | h) <;> exact h1 (by rw [h]; decide)
    have hB : ¬(name.toList.take 4 = "bund".toList ∨ name.toList.take 4 = "Bund".toList) := by
      rintro (h | h) <;> exact h2 (by rw [h]; decide)
    unfold scenario_creator
    rw [if_neg hA, if_neg hB]
  · rintro ⟨h1, h2⟩
    unfold scenario_creator
    by_cases hA : name.toList.take 4 = "scen".toList ∨ name.toList.take 4 = "Scen".toList
    · rw [if_pos hA]
      unfold scen_branch
      rw [h2]
      rfl
    · have hB : ¬(name.toList.take 4 = "bund".toList ∨ name.toList.take 4 = "Bund".toList) := by
        rintro (h | h) <;> (rw [h] at h1; exact absurd h1 (by decide))
      rw [if_neg hA, if_neg hB]
  · rintro ⟨h1, h2⟩
    have hpn : parseBundleName name = none := parseBundleName_none_of_fieldsFail name h2
    unfold scenario_creator
    have hA : ¬(name.toList.take 4 = "scen".toList ∨ name.toList.take 4 = "Scen".toList) := by
      rintro (h | h) <;> (rw [h] at h1; exact absurd h1 (by decide))
    rw [if_neg hA]
    by_cases hB : name.toList.take 4 = "bund".toList ∨ name.toList.take 4 = "Bund".toList
    · rw [if_pos hB]
      unfold bund_branch
      rw [hpn]
      rfl
    · rw [if_neg hB]

/-- Counterexample to C8 as stated: `"bund_1_2_x"` matches the bundle
prefix and has no trailing digits, yet with `bundle_size = 2` and
`num_scens = 3` it resolves and builds successfully instead of failing
with `InvalidNameError`. -/
theorem C8_counterexample :
    (("bund_1_2_x" : String).toList.take 4).map Char.toLower = "bund".toList ∧
    extract_num "bund_1_2_x" = none ∧
    (scenario_creator drawZero 2 3 "bund_1_2_x" false pyoMinimize 1 (some 3) 0
      (RNG.seed 0)).toOption.isSome = true := by
  refine ⟨by decide, by decide, by decide⟩

/-- Witness for C8 at the concrete malformed names `"foo"` (unrecognized
prefix), `"scenario"` (scenario prefix, no trailing digits) and
`"bund_x_2"` (bundle prefix, non-numeric field). -/
theorem C8_witness :
    scenario_creator drawZero 0 0 "foo" false pyoMinimize 1 none 0 (RNG.seed 0) =
      .error .invalidName ∧
    scenario_creator drawZero 0 0 "scenario" false pyoMinimize 1 none 0 (RNG.seed 0) =
      .error .invalidName ∧
    scenario_creator drawZero 0 0 "bund_x_2" false pyoMinimize 1 none 0 (RNG.seed 0) =
      .error .invalidName := by
  refine ⟨?_, ?_, ?_⟩
  · exact (C8_invalid_name_resolution drawZero 0 0 "foo" false pyoMinimize 1 none 0
      (RNG.seed 0)).1 (by decide)
  · exact (C8_invalid_name_resolution drawZero 0 0 "scenario" false pyoMinimize 1 none 0
      (RNG.seed 0)).2.1 (by decide)
  · exact (C8_invalid_name_resolution drawZero 0 0 "bund_x_2" false pyoMinimize 1 none 0
      (RNG.seed 0)).2.2 (by decide)
